import Mathlib

/-!
Verification of the Gemma15 event-guest application's invite/auth flow,
invite generator, mode gate, subscriptions and photo upload against its
specification.  The definitions below are a shallow embedding of the
TypeScript source: the backend (Supabase) relational state is an explicit
`DB` record, every operation returns the list of backend calls it issues,
and JavaScript string operations are modelled on `List Char` so that all
definitions evaluate by kernel reduction.
-/

namespace Gemma15

/-! ## Data model (src/types.ts, current version) -/

inductive UserSegment
  | YOUNG
  | ADULT
  | ADMIN
deriving DecidableEq, Repr

/-- Row of the `invites` table (interface InviteCode). -/
structure InviteCode where
  code : String
  segment : UserSegment
  is_used : Bool
  used_by : Option String := none
deriving DecidableEq, Repr

/-- Row of the `profiles` table (interface UserProfile); UI-only fields omitted. -/
structure UserProfile where
  user_id : String
  name : String
  segment : UserSegment
  is_celiac : Bool
  table : Option String := none
  created_at : String
deriving DecidableEq, Repr

inductive ModStatus
  | PENDING
  | APPROVED
  | REJECTED
deriving DecidableEq, Repr

/-- Row of the `photos` table. -/
structure Photo where
  id : Nat
  user_id : String
  storage_path : String
  status : ModStatus
  is_featured : Bool
deriving DecidableEq, Repr

inductive RsvpStatus
  | CONFIRMED
  | DECLINED
  | PENDING
deriving DecidableEq, Repr

/-- Row of the `rsvps` table as written by the current RSVPCard (no note field). -/
structure RSVP where
  user_id : String
  status : RsvpStatus
  updated_at : String
deriving DecidableEq, Repr

/-- The relational backend state touched by the modelled operations. -/
structure DB where
  invites : List InviteCode
  profiles : List UserProfile
  photos : List Photo
deriving DecidableEq, Repr

/-- One backend invocation: a relational read/write, an identity call, a
storage call, or a realtime channel operation.  Every modelled operation
returns the list of such calls it issues, so that mock-mode call counts
can be stated. -/
inductive BCall
  | selectInvites
  | insertInvites
  | updateInvites
  | selectProfiles
  | insertProfiles
  | updateProfiles
  | selectRsvps
  | upsertRsvps
  | selectChatMessages
  | insertChatMessages
  | selectPhotos
  | insertPhotos
  | updatePhotos
  | storageUpload
  | getSession
  | signInAnonymously
  | signInWithPassword
  | signUp
  | signInWithOtp
  | signOut
  | subscribeChannel
  | removeChannel
deriving DecidableEq, Repr

/-- Error taxonomy of code validation (the two thrown messages of validateCode). -/
inductive AuthError
  | InvalidCode
  | AlreadyUsed
deriving DecidableEq, Repr

instance : DecidableEq (Except AuthError InviteCode) := fun x y =>
  match x, y with
  | .error a, .error b => decidable_of_iff (a = b) (by simp)
  | .error _, .ok _ => isFalse (fun h => Except.noConfusion h)
  | .ok _, .error _ => isFalse (fun h => Except.noConfusion h)
  | .ok a, .ok b => decidable_of_iff (a = b) (by simp)

/-! ## Invite validation and redemption (App.tsx, current version) -/

/-- `supabase.from('invites').select('*').eq('code', code).single()`:
the invite row with that code, if any. -/
def findInvite (db : DB) (code : String) : Option InviteCode :=
  db.invites.find? (fun i => i.code == code)

/-- validateCode (App.tsx lines 232-243).  In mock mode every string
resolves without any backend call; online, the sentinel resolves to a
virtual admin invite before any lookup, and any other code is looked up
and rejected when absent (InvalidCode) or already used (AlreadyUsed). -/
def validateCode (mock : Bool) (code : String) (db : DB) :
    Except AuthError InviteCode × List BCall :=
  if mock then
    if code == "ADMIN-SETUP" then (.ok ⟨code, .ADMIN, false, none⟩, [])
    else (.ok ⟨code, .YOUNG, false, none⟩, [])
  else if code == "ADMIN-SETUP" then (.ok ⟨code, .ADMIN, false, none⟩, [])
  else
    match findInvite db code with
    | none => (.error .InvalidCode, [.selectInvites])
    | some invite =>
      if invite.is_used then (.error .AlreadyUsed, [.selectInvites])
      else (.ok invite, [.selectInvites])

/-- `supabase.from('invites').update({ is_used: true, used_by: userId }).eq('code', code)`. -/
def markUsed (invites : List InviteCode) (code uid : String) : List InviteCode :=
  invites.map (fun i =>
    if i.code == code then { i with is_used := true, used_by := some uid } else i)

/-- createProfileAndEnter (App.tsx lines 312-338).  Online it looks up an
existing profile; when none exists it inserts a fresh one and, for a
non-admin non-sentinel invite, marks the invite used recording the
redeemer.  Returns the new backend state, the profile entered with, and
the backend calls issued. -/
def createProfileAndEnter (mock : Bool) (userId : String) (invite : InviteCode)
    (nowIso : String) (db : DB) : DB × UserProfile × List BCall :=
  let isAdminLogin := invite.segment == .ADMIN
  let newProfile : UserProfile :=
    { user_id := userId
      name := if isAdminLogin then "Administrador" else ""
      segment := invite.segment
      is_celiac := false
      table := none
      created_at := nowIso }
  if mock then (db, newProfile, [])
  else
    match db.profiles.find? (fun p => p.user_id == userId) with
    | some existing => (db, existing, [.selectProfiles])
    | none =>
      let db1 : DB := { db with profiles := db.profiles ++ [newProfile] }
      if !isAdminLogin && invite.code != "ADMIN-SETUP" then
        ({ db1 with invites := markUsed db1.invites invite.code userId },
          newProfile, [.selectProfiles, .insertProfiles, .updateInvites])
      else (db1, newProfile, [.selectProfiles, .insertProfiles])

/-- One end-to-end redemption of a code by a resolved identity: validation
followed, on success, by profile materialization.  On a validation
failure the flow surfaces the error and stops. -/
def redeem (mock : Bool) (code uid nowIso : String) (db : DB) :
    DB × Option AuthError × List BCall :=
  match validateCode mock code db with
  | (.error e, calls) => (db, some e, calls)
  | (.ok invite, calls) =>
    let r := createProfileAndEnter mock uid invite nowIso db
    (r.1, none, calls ++ r.2.2)

/-- Repeated redemptions of the same code by a sequence of
(identity, timestamp) pairs. -/
def redeemAll (mock : Bool) (code : String) (users : List (String × String))
    (db : DB) : DB :=
  users.foldl (fun d u => (redeem mock code u.1 u.2 d).1) db

/-- Calls of BCall that write to the relational store or the object store. -/
def BCall.isWrite : BCall → Bool
  | .insertInvites | .updateInvites | .insertProfiles | .updateProfiles
  | .upsertRsvps | .insertChatMessages | .insertPhotos | .updatePhotos
  | .storageUpload => true
  | _ => false

/-! ## Mode gate (src/services/supabaseClient.ts) -/

/-- JavaScript truthiness test used by `!url` / `!key` on an
environment-provided string: false exactly for a missing variable or the
empty string. -/
def jsTruthy : Option String → Bool
  | none => false
  | some s => s != ""

/-- `url.includes('placeholder')`: substring containment. -/
def includesPlaceholder : Option String → Bool
  | none => false
  | some u => decide ("placeholder".data <:+: u.data)

/-- isMockMode (supabaseClient.ts line 11):
`!url || !key || url.includes('placeholder')`, computed once at module
load from the two environment values. -/
def isMockMode (url key : Option String) : Bool :=
  !jsTruthy url || !jsTruthy key || includesPlaceholder url

/-- Modelled from the spec's words for claim C4 only (to be compared with
`isMockMode`): mock mode iff the endpoint or the key is absent or EQUAL
to its known placeholder value (the placeholders of supabaseClient.ts
lines 15-16). -/
def isMockModeClaim (url key : Option String) : Bool :=
  url.isNone || key.isNone ||
    url == some "https://placeholder.supabase.co" || key == some "placeholder-key"

/-! ## Auth flow state (App.tsx, current version) -/

inductive View
  | AUTH
  | HOME
  | ADMIN
  | PROFILE_SETUP
deriving DecidableEq, Repr

inductive AuthMode
  | CODE
  | EMAIL_REQUIRED
deriving DecidableEq, Repr

/-- Which of the two realtime subscriptions of a session are currently
open: the theme-config UPDATE channel (opened by the root effect) and
the chat-message INSERT channel (opened by loadUserData). -/
structure SubState where
  themeOpen : Bool
  chatOpen : Bool
deriving DecidableEq, Repr

/-- The React state of App relevant to auth, plus the channel state. -/
structure AppState where
  user : Option UserProfile
  isAdmin : Bool
  view : View
  inviteCode : String
  email : String
  password : String
  authMode : AuthMode
  authError : Option AuthError
  subs : SubState
deriving DecidableEq, Repr

/-- `e.target.value.toUpperCase()` / `inviteCode.toUpperCase()` on the
char sequence (ASCII, as the codes are). -/
def toUpperStr (s : String) : String :=
  String.mk (s.data.map Char.toUpper)

/-- handleAuth (App.tsx lines 245-262, current version): validates the
(uppercased) code and, on success, switches the form to EMAIL_REQUIRED;
on a validation failure it records the error and stays on the code form.
No identity call is made on either path. -/
def handleAuth (mock : Bool) (s : AppState) (db : DB) : AppState × List BCall :=
  if s.inviteCode == "" then (s, [])
  else
    match validateCode mock (toUpperStr s.inviteCode) db with
    | (.ok _invite, calls) =>
      ({ s with authMode := .EMAIL_REQUIRED, authError := none }, calls)
    | (.error e, calls) => ({ s with authError := some e }, calls)

/-- The identity service's answer to `signInWithPassword`: a resolved
user, the 'Invalid login' rejection, or any other error. -/
inductive PasswordResult
  | okUser (userId : String)
  | invalidLogin
  | otherError
deriving DecidableEq, Repr

/-- The identity service's answer to `signUp`: a resolved user, success
without a user object (email confirmation pending), or an error. -/
inductive SignUpResult
  | okUser (userId : String)
  | noUser
  | err
deriving DecidableEq, Repr

/-- The identity service's responses consumed by handleEmailAuth,
external inputs of the flow. -/
structure AuthBackend where
  password : PasswordResult
  signup : SignUpResult
  otpOk : Bool
deriving DecidableEq, Repr

/-- How a handleEmailAuth run ends. -/
inductive EmailAuthOutcome
  | entered (p : UserProfile)
  | magicLinkSent
  | failed
deriving DecidableEq, Repr

/-- handleEmailAuth (App.tsx lines 264-310, current version).  An empty
email, a validation failure, or (on the admin branch) an empty password
returns before any identity call.  Otherwise the admin-sentinel branch
calls signInWithPassword, falling back to signUp exactly once on an
invalid-login error, and the guest branch sends the one-time email link
(signInWithOtp).  NONE of these identity calls is guarded by
isMockMode. -/
def handleEmailAuth (mock : Bool) (s : AppState) (be : AuthBackend)
    (nowIso : String) (db : DB) : EmailAuthOutcome × DB × List BCall :=
  if s.email == "" then (.failed, db, [])
  else
    match validateCode mock (toUpperStr s.inviteCode) db with
    | (.error _, calls) => (.failed, db, calls)
    | (.ok invite, calls) =>
      if invite.code == "ADMIN-SETUP" then
        if s.password == "" then (.failed, db, calls)
        else
          match be.password with
          | .okUser uid =>
            let r := createProfileAndEnter mock uid invite nowIso db
            (.entered r.2.1, r.1, calls ++ [.signInWithPassword] ++ r.2.2)
          | .invalidLogin =>
            match be.signup with
            | .okUser uid =>
              let r := createProfileAndEnter mock uid invite nowIso db
              (.entered r.2.1, r.1, calls ++ [.signInWithPassword, .signUp] ++ r.2.2)
            | .noUser => (.failed, db, calls ++ [.signInWithPassword, .signUp])
            | .err => (.failed, db, calls ++ [.signInWithPassword, .signUp])
          | .otherError => (.failed, db, calls ++ [.signInWithPassword])
      else
        if be.otpOk then (.magicLinkSent, db, calls ++ [.signInWithOtp])
        else (.failed, db, calls ++ [.signInWithOtp])

/-- handleLogout (App.tsx lines 221-230, current version): signs out
online, resets the auth-related React state, and performs no channel
removal. -/
def handleLogout (mock : Bool) (s : AppState) : AppState × List BCall :=
  ({ s with
      user := none, isAdmin := false, inviteCode := "", email := "",
      password := "", view := .AUTH, authMode := .CODE },
    if mock then [] else [.signOut])

/-- The theme-config realtime subscription opened by the root effect
(App.tsx lines 150-157); in mock mode no channel is opened. -/
def openThemeChannel (mock : Bool) (subs : SubState) : SubState × List BCall :=
  if mock then (subs, [])
  else ({ subs with themeOpen := true }, [.subscribeChannel])

/-- The root effect's cleanup (App.tsx line 156), run when the App
component unmounts: it removes the theme channel.  It is not invoked by
handleLogout. -/
def rootCleanup (mock : Bool) (subs : SubState) : SubState × List BCall :=
  if mock then (subs, [])
  else ({ subs with themeOpen := false }, [.removeChannel])

/-- loadUserData (App.tsx lines 190-218): in mock mode it installs canned
messages locally; online it reads the RSVP, the chat history and the
approved photos, and opens the chat-message INSERT subscription. -/
def loadUserData (mock : Bool) (subs : SubState) : SubState × List BCall :=
  if mock then (subs, [])
  else ({ subs with chatOpen := true },
    [.selectRsvps, .selectChatMessages, .selectPhotos, .subscribeChannel])

/-! ## Feature-card operations (App.tsx, current version) -/

/-- RSVPCard.updateRsvp (App.tsx lines 674-689): builds the new RSVP row,
reflects it locally, and upserts it only when online. -/
def updateRsvp (mock : Bool) (uid : String) (status : RsvpStatus)
    (nowIso : String) : RSVP × List BCall :=
  (⟨uid, status, nowIso⟩, if mock then [] else [.upsertRsvps])

/-- ChatCard.sendMessage (App.tsx lines 787-801): a blank text returns
before anything; in mock mode the message is appended locally only. -/
def sendMessage (mock : Bool) (text : String) : List BCall :=
  if text.data.all Char.isWhitespace then []
  else if mock then [] else [.insertChatMessages]

/-- AdminPanel.moderatePhoto (App.tsx lines 527-530): updates the photo's
status and refetches the list.  The source has NO isMockMode guard here,
so the two backend calls are issued whatever the mode. -/
def moderatePhoto (mock : Bool) (photoId : Nat) (status : ModStatus) (db : DB) :
    DB × List BCall :=
  ({ db with photos := db.photos.map (fun p =>
      if p.id == photoId then { p with status := status } else p) },
    [.updatePhotos, .selectPhotos])

/-- AdminPanel.updateTable (App.tsx lines 494-504): a falsy user id
returns early; otherwise the profile row is updated.  The source has NO
isMockMode guard here either. -/
def updateTable (mock : Bool) (userId newTable : String) (db : DB) :
    DB × List BCall :=
  if userId == "" then (db, [])
  else ({ db with profiles := db.profiles.map (fun p =>
      if p.user_id == userId then { p with table := some newTable } else p) },
    [.updateProfiles])

/-! ## Invite generator (AdminPanel.batchGenerate, App.tsx lines 445-492) -/

/-- `genSegment === UserSegment.YOUNG ? 'G15-J' : 'G15-A'`. -/
def segmentCodeStart (seg : UserSegment) : String :=
  if seg == .YOUNG then "G15-J" else "G15-A"

/-- Strict lexicographic order on char sequences by code point, the
order `order('code', { ascending: false })` sorts ASCII codes by. -/
def codeLtb : List Char → List Char → Bool
  | [], [] => false
  | [], _ :: _ => true
  | _ :: _, [] => false
  | a :: as, b :: bs =>
    if a.toNat < b.toNat then true
    else if b.toNat < a.toNat then false
    else codeLtb as bs

/-- One step of scanning for the lexicographically greatest code. -/
def lexMaxStep (acc : Option String) (c : String) : Option String :=
  match acc with
  | none => some c
  | some m => some (if codeLtb m.data c.data then c else m)

/-- `select('code').like('code', pfx%).order('code', descending).limit(1).single()`:
the lexicographically greatest code starting with `pfx`, if any row matches. -/
def lastCodeWith (invites : List InviteCode) (pfx : String) : Option String :=
  ((invites.map (fun i => i.code)).filter
      (fun c => pfx.data.isPrefixOf c.data)).foldl lexMaxStep none

/-- Decimal value of a digit list, most significant first
(the value JavaScript parseInt assigns to a digit string). -/
def natOfDigits (l : List Char) : Nat :=
  l.foldl (fun a c => 10 * a + (c.toNat - 48)) 0

/-- `parseInt(numPart)` for the suffixes at hand: the value of the
leading run of decimal digits, none when there is no leading digit
(JavaScript NaN). -/
def parseIntNat (s : String) : Option Nat :=
  let ds := s.data.takeWhile Char.isDigit
  if ds.isEmpty then none else some (natOfDigits ds)

/-- `lastInvite.code.replace(prefix, '')`: for a code returned by the
LIKE 'pfx%' query this removes exactly the leading prefix. -/
def stripCodeStart (pfx c : String) : String :=
  String.mk (c.data.drop pfx.data.length)

/-- `currentNum.toString().padStart(2, '0')`. -/
def padStart2 (n : Nat) : String :=
  let s := Nat.repr n
  if s.length < 2 then String.mk (List.replicate (2 - s.length) '0' ++ s.data) else s

/-- The suffix printed for the i-th generated code: `startNum + i`
zero-padded, or the string "NaN" when parseInt produced NaN (NaN + i is
NaN and String(NaN).padStart(2,'0') is "NaN"). -/
def genSuffix : Option Nat → Nat → String
  | none, _ => "NaN"
  | some start, i => padStart2 (start + i)

/-- batchGenerate (App.tsx lines 445-492), online write path.  The start
number is the parsed numeric suffix of the lexicographically last
existing code with the segment's prefix, plus one (1 when none exists);
`amount` consecutive codes are then inserted unused.  In mock mode
nothing is queried or inserted. -/
def batchGenerate (mock : Bool) (seg : UserSegment) (amount : Nat) (db : DB) :
    DB × List BCall :=
  let pfx := segmentCodeStart seg
  if mock then (db, [])
  else
    let startNum : Option Nat :=
      match lastCodeWith db.invites pfx with
      | none => some 1
      | some c => (parseIntNat (stripCodeStart pfx c)).map (fun n => n + 1)
    let newInvites := (List.range amount).map (fun i =>
      ({ code := pfx ++ genSuffix startNum i, segment := seg,
         is_used := false, used_by := none } : InviteCode))
    ({ db with invites := db.invites ++ newInvites },
      [.selectInvites, .insertInvites])

/-! ## Photo upload (PhotoUploadCard.handleUpload, App.tsx lines 716-756) -/

/-- `file.name.replace(/[^a-zA-Z0-9]/g, '_')`: every character outside
A-Z, a-z, 0-9 becomes an underscore. -/
def cleanName (name : String) : String :=
  String.mk (name.data.map (fun c => if c.isAlphanum then c else '_'))

/-- Splitting a char sequence at '.' separators, as `name.split('.')`. -/
def splitDotAux : List Char → List Char → List (List Char)
  | [], acc => [acc.reverse]
  | c :: cs, acc =>
    if c = '.' then acc.reverse :: splitDotAux cs [] else splitDotAux cs (c :: acc)

/-- `file.name.split('.').pop()`: the text after the last dot (the whole
name when it has no dot). -/
def fileExt (name : String) : String :=
  String.mk ((splitDotAux name.data []).getLastD [])

/-- The storage object path
`${user.user_id}/${Date.now()}_${cleanName}.${fileExt}` built by
handleUpload. -/
def storagePath (userId fileName : String) (now : Nat) : String :=
  userId ++ "/" ++ Nat.repr now ++ "_" ++ cleanName fileName ++ "." ++ fileExt fileName

/-- Modelled from the spec's words for claim C9 only (to be compared
with `cleanName`): sanitizing a name by STRIPPING its non-alphanumeric
characters. -/
def stripNonAlnum (s : String) : String :=
  String.mk (s.data.filter Char.isAlphanum)

/-- The row handleUpload inserts into `photos` (the id is assigned by the
backend). -/
structure PhotoInsert where
  user_id : String
  storage_path : String
  status : ModStatus
  is_featured : Bool
deriving DecidableEq, Repr

/-- handleUpload (App.tsx lines 716-756): in mock mode it only simulates;
online it uploads the file under `storagePath` and inserts the PENDING
photo row. -/
def handleUpload (mock : Bool) (userId fileName : String) (now : Nat) :
    Option PhotoInsert × List BCall :=
  if mock then (none, [])
  else (some ⟨userId, storagePath userId fileName now, .PENDING, false⟩,
    [.storageUpload, .insertPhotos])

end Gemma15

namespace Gemma15

/-! ## Theorems: claims C1, C2, C10 -/

/-- C1: in online mode, for every code other than the sentinel,
validateCode looks the code up and fails with InvalidCode when no invite
row with that code exists and with AlreadyUsed when the row's used flag
is set; in both failure cases the redemption leaves the backend state
unchanged and issues no write call. -/
theorem validate_failure_writes_nothing (code uid nowIso : String) (db : DB)
    (hs : code ≠ "ADMIN-SETUP") :
    (findInvite db code = none →
      validateCode false code db = (.error .InvalidCode, [.selectInvites]) ∧
      redeem false code uid nowIso db = (db, some .InvalidCode, [.selectInvites])) ∧
    (∀ inv, findInvite db code = some inv → inv.is_used = true →
      validateCode false code db = (.error .AlreadyUsed, [.selectInvites]) ∧
      redeem false code uid nowIso db = (db, some .AlreadyUsed, [.selectInvites])) ∧
    (∀ c ∈ [BCall.selectInvites], c.isWrite = false) := by
  have hb : (code == "ADMIN-SETUP") = false := by
    simp [hs]
  refine ⟨fun hnone => ?_, fun inv hfind hused => ?_, by decide⟩
  · have hv : validateCode false code db = (.error .InvalidCode, [.selectInvites]) := by
      simp [validateCode, hb, hnone]
    exact ⟨hv, by simp [redeem, hv]⟩
  · have hv : validateCode false code db = (.error .AlreadyUsed, [.selectInvites]) := by
      simp [validateCode, hb, hfind, hused]
    exact ⟨hv, by simp [redeem, hv]⟩

/-- Witness for C1 at concrete inputs: an unknown code on an empty
backend, and a used code. -/
theorem validate_failure_writes_nothing_witness :
    (validateCode false "G15-J01" ⟨[], [], []⟩ =
      (.error .InvalidCode, [.selectInvites]) ∧
     redeem false "G15-J01" "u1" "t1" ⟨[], [], []⟩ =
      (⟨[], [], []⟩, some .InvalidCode, [.selectInvites])) ∧
    (validateCode false "G15-J02" ⟨[⟨"G15-J02", .YOUNG, true, some "u0"⟩], [], []⟩ =
      (.error .AlreadyUsed, [.selectInvites]) ∧
     redeem false "G15-J02" "u1" "t1" ⟨[⟨"G15-J02", .YOUNG, true, some "u0"⟩], [], []⟩ =
      (⟨[⟨"G15-J02", .YOUNG, true, some "u0"⟩], [], []⟩, some .AlreadyUsed,
        [.selectInvites])) :=
  ⟨(validate_failure_writes_nothing "G15-J01" "u1" "t1" ⟨[], [], []⟩
      (by decide)).1 (by decide),
   ((validate_failure_writes_nothing "G15-J02" "u1" "t1"
      ⟨[⟨"G15-J02", .YOUNG, true, some "u0"⟩], [], []⟩ (by decide)).2.1
      ⟨"G15-J02", .YOUNG, true, some "u0"⟩ (by decide) (by decide))⟩

/-- The invites table is untouched by a single sentinel redemption. -/
theorem redeem_admin_invites_frame (uid nowIso : String) (db : DB) :
    (redeem false "ADMIN-SETUP" uid nowIso db).1.invites = db.invites := by
  unfold redeem validateCode createProfileAndEnter
  cases h : db.profiles.find? (fun p => p.user_id == uid) <;> simp [h]

/-- C2: the sentinel code resolves to an admin-segment virtual invite
with no lookup (no backend call, and independently of the backend
state), and however many times it is redeemed the invites table is
unchanged: no invite row is marked used and no redeemer is recorded. -/
theorem admin_sentinel_never_consumes :
    (∀ db : DB, validateCode false "ADMIN-SETUP" db =
      (.ok ⟨"ADMIN-SETUP", .ADMIN, false, none⟩, [])) ∧
    (∀ (users : List (String × String)) (db : DB),
      (redeemAll false "ADMIN-SETUP" users db).invites = db.invites) := by
  refine ⟨fun db => rfl, fun users => ?_⟩
  induction users with
  | nil => intro db; rfl
  | cons u rest ih =>
    intro db
    calc (redeemAll false "ADMIN-SETUP" (u :: rest) db).invites
        = (redeemAll false "ADMIN-SETUP" rest
            (redeem false "ADMIN-SETUP" u.1 u.2 db).1).invites := rfl
      _ = (redeem false "ADMIN-SETUP" u.1 u.2 db).1.invites := ih _
      _ = db.invites := redeem_admin_invites_frame u.1 u.2 db

/-- C10: in mock mode validateCode never fails: every non-sentinel string
resolves to a fresh unused YOUNG invite carrying that string, and the
sentinel resolves to an unused ADMIN invite, in both cases with zero
backend calls. -/
theorem mock_validate_never_fails (code : String) (db : DB) :
    (code ≠ "ADMIN-SETUP" →
      validateCode true code db = (.ok ⟨code, .YOUNG, false, none⟩, [])) ∧
    validateCode true "ADMIN-SETUP" db =
      (.ok ⟨"ADMIN-SETUP", .ADMIN, false, none⟩, []) := by
  constructor
  · intro hs
    have hb : (code == "ADMIN-SETUP") = false := by simp [hs]
    simp [validateCode, hb]
  · rfl

/-- Witness for C10 at a concrete arbitrary string. -/
theorem mock_validate_never_fails_witness :
    validateCode true "TOTALLY-UNKNOWN" ⟨[], [], []⟩ =
      (.ok ⟨"TOTALLY-UNKNOWN", .YOUNG, false, none⟩, []) ∧
    validateCode true "ADMIN-SETUP" ⟨[], [], []⟩ =
      (.ok ⟨"ADMIN-SETUP", .ADMIN, false, none⟩, []) :=
  ⟨(mock_validate_never_fails "TOTALLY-UNKNOWN" ⟨[], [], []⟩).1 (by decide),
   (mock_validate_never_fails "TOTALLY-UNKNOWN" ⟨[], [], []⟩).2⟩

/-! ## Theorems: claim C4 (mode gate) -/

/-- C4 counterexample: a key equal to the known placeholder string with a
real endpoint URL does NOT put the app in mock mode, although the
claimed characterization says it must. -/
theorem mock_gate_claim_cex :
    isMockMode (some "https://real.supabase.co") (some "placeholder-key") = false ∧
    isMockModeClaim (some "https://real.supabase.co") (some "placeholder-key") = true := by
  decide

/-- C4 amended: the app is in mock mode exactly when the endpoint URL is
absent or empty, the access key is absent or empty, or the endpoint URL
CONTAINS the substring "placeholder"; the key's value never triggers
mock mode on its own.  The mode is a pure function of the two
configuration strings. -/
theorem mock_gate_characterization (url key : Option String) :
    isMockMode url key = true ↔
      url = none ∨ url = some "" ∨ key = none ∨ key = some "" ∨
        (∃ u, url = some u ∧ "placeholder".data <:+: u.data) := by
  cases url with
  | none => simp [isMockMode, jsTruthy]
  | some u =>
    cases key with
    | none => simp [isMockMode, jsTruthy]
    | some k =>
      by_cases hu : u = "" <;> by_cases hk : k = "" <;>
        simp [isMockMode, jsTruthy, includesPlaceholder, hu, hk]

/-! ## Theorems: claim C5 (anonymous-session attempt) -/

/-- validateCode only ever issues the single invite lookup. -/
theorem validateCode_reads_only (mock : Bool) (code : String) (db : DB) :
    (validateCode mock code db).2 = [] ∨
    (validateCode mock code db).2 = [BCall.selectInvites] := by
  cases mock with
  | false =>
    by_cases hs : (code == "ADMIN-SETUP") = true
    · simp [validateCode, hs]
    · simp only [Bool.not_eq_true] at hs
      cases hf : findInvite db code with
      | none => simp [validateCode, hs, hf]
      | some inv => by_cases hu : inv.is_used <;> simp [validateCode, hs, hf, hu]
  | true => by_cases hs : (code == "ADMIN-SETUP") = true <;> simp [validateCode, hs]

/-- C5 counterexample: online, with a valid unused non-sentinel code in
the backend, handleAuth moves to EMAIL_REQUIRED without ever calling
signInAnonymously — the anonymous attempt the claim requires never
happens, even though the backend was never consulted about it. -/
theorem handleAuth_skips_anonymous_cex :
    (handleAuth false
        ⟨none, false, .AUTH, "G15-J01", "", "", .CODE, none, ⟨false, false⟩⟩
        ⟨[⟨"G15-J01", .YOUNG, false, none⟩], [], []⟩).1.authMode = .EMAIL_REQUIRED ∧
    BCall.signInAnonymously ∉
      (handleAuth false
        ⟨none, false, .AUTH, "G15-J01", "", "", .CODE, none, ⟨false, false⟩⟩
        ⟨[⟨"G15-J01", .YOUNG, false, none⟩], [], []⟩).2 := by
  decide

/-- C5 amended: in the current handleAuth every code passing online
validation transitions to EMAIL_REQUIRED unconditionally: no anonymous
(or any other identity) call is attempted, and the entered invite code
is preserved for the email branch. -/
theorem handleAuth_unconditional_email (s : AppState) (db : DB)
    (inv : InviteCode) (calls : List BCall)
    (hne : s.inviteCode ≠ "")
    (hv : validateCode false (toUpperStr s.inviteCode) db = (.ok inv, calls)) :
    handleAuth false s db =
      ({ s with authMode := .EMAIL_REQUIRED, authError := none }, calls) ∧
    (handleAuth false s db).1.inviteCode = s.inviteCode ∧
    BCall.signInAnonymously ∉ (handleAuth false s db).2 ∧
    BCall.signInWithOtp ∉ (handleAuth false s db).2 ∧
    BCall.signInWithPassword ∉ (handleAuth false s db).2 := by
  have hb : (s.inviteCode == "") = false := by simp [hne]
  have hmain : handleAuth false s db =
      ({ s with authMode := .EMAIL_REQUIRED, authError := none }, calls) := by
    simp [handleAuth, hb, hv]
  have hcalls : calls = [] ∨ calls = [BCall.selectInvites] := by
    have h := validateCode_reads_only false (toUpperStr s.inviteCode) db
    rw [hv] at h
    exact h
  refine ⟨hmain, by rw [hmain], ?_, ?_, ?_⟩ <;>
    · rw [hmain]
      rcases hcalls with rfl | rfl <;> simp

/-- Witness for C5's amended claim at a concrete state and backend. -/
theorem handleAuth_unconditional_email_witness :
    handleAuth false
        ⟨none, false, .AUTH, "G15-J02", "", "", .CODE, none, ⟨false, false⟩⟩
        ⟨[⟨"G15-J02", .YOUNG, false, none⟩], [], []⟩ =
      (⟨none, false, .AUTH, "G15-J02", "", "", .EMAIL_REQUIRED, none, ⟨false, false⟩⟩,
        [BCall.selectInvites]) :=
  (handleAuth_unconditional_email
      ⟨none, false, .AUTH, "G15-J02", "", "", .CODE, none, ⟨false, false⟩⟩
      ⟨[⟨"G15-J02", .YOUNG, false, none⟩], [], []⟩
      ⟨"G15-J02", .YOUNG, false, none⟩ [BCall.selectInvites]
      (by decide) (by decide)).1

/-! ## Theorems: claim C6 (mock mode issues no backend call) -/

/-- C6 counterexample: in mock mode, the admin moderation and table
assignment actions still issue backend calls (the source has no mock
guard in moderatePhoto and updateTable), and so does the email identity
branch, which is reachable in mock mode because mock handleAuth still
enters EMAIL_REQUIRED: submitting the email form fires signInWithOtp.
The mock-mode backend call count is therefore not zero. -/
theorem mock_moderation_calls_cex :
    (moderatePhoto true 1 .APPROVED ⟨[], [], [⟨1, "u0", "p0", .PENDING, false⟩]⟩).2 =
      [.updatePhotos, .selectPhotos] ∧
    ((moderatePhoto true 1 .APPROVED
        ⟨[], [], [⟨1, "u0", "p0", .PENDING, false⟩]⟩).2).length ≠ 0 ∧
    (updateTable true "u0" "Mesa 1" ⟨[], [], []⟩).2 = [.updateProfiles] ∧
    (handleAuth true
        ⟨none, false, .AUTH, "G15-J01", "", "", .CODE, none, ⟨false, false⟩⟩
        ⟨[], [], []⟩).1.authMode = .EMAIL_REQUIRED ∧
    (handleEmailAuth true
        ⟨none, false, .AUTH, "G15-J01", "g@example.com", "", .EMAIL_REQUIRED, none,
          ⟨false, false⟩⟩
        ⟨.invalidLogin, .err, true⟩ "t0" ⟨[], [], []⟩).2.2 = [.signInWithOtp] ∧
    (handleEmailAuth true
        ⟨none, false, .AUTH, "ADMIN-SETUP", "a@example.com", "pw", .EMAIL_REQUIRED, none,
          ⟨false, false⟩⟩
        ⟨.okUser "u1", .err, true⟩ "t0" ⟨[], [], []⟩).2.2 = [.signInWithPassword] := by
  decide

/-- C6 amended: in mock mode every modelled operation issues zero backend
calls EXCEPT admin photo moderation (moderatePhoto), admin table
assignment (updateTable) and the email identity branch
(handleEmailAuth), none of which is gated on isMockMode.  The two admin
actions issue their relational calls in any mode (though the mock admin
UI never populates the lists they are reached from), and handleEmailAuth
— reachable in mock mode, since mock handleAuth still enters
EMAIL_REQUIRED — sends the one-time email link for a guest code and
calls signInWithPassword (with its one-shot signUp fallback) for the
admin sentinel; only its empty-email and empty-password early returns
stay call-free. -/
theorem mock_mode_backend_calls :
    (∀ uid tbl db, uid ≠ "" → (updateTable true uid tbl db).2 = [BCall.updateProfiles]) ∧
    (∀ pid st db, (moderatePhoto true pid st db).2 = [.updatePhotos, .selectPhotos]) ∧
    (∀ s be nowIso db, s.email ≠ "" → toUpperStr s.inviteCode ≠ "ADMIN-SETUP" →
      (handleEmailAuth true s be nowIso db).2.2 = [.signInWithOtp]) ∧
    (∀ s be nowIso db, s.email ≠ "" → toUpperStr s.inviteCode = "ADMIN-SETUP" →
      s.password ≠ "" →
      BCall.signInWithPassword ∈ (handleEmailAuth true s be nowIso db).2.2) ∧
    (∀ s be nowIso db, s.email = "" → (handleEmailAuth true s be nowIso db).2.2 = []) ∧
    (∀ code db, (validateCode true code db).2 = []) ∧
    (∀ uid inv nowIso db, (createProfileAndEnter true uid inv nowIso db).2.2 = []) ∧
    (∀ code uid nowIso db, (redeem true code uid nowIso db).2.2 = []) ∧
    (∀ s db, (handleAuth true s db).2 = []) ∧
    (∀ seg n db, (batchGenerate true seg n db).2 = []) ∧
    (∀ s, (handleLogout true s).2 = []) ∧
    (∀ uid st nowIso, (updateRsvp true uid st nowIso).2 = []) ∧
    (∀ t, sendMessage true t = []) ∧
    (∀ uid f now, (handleUpload true uid f now).2 = []) ∧
    (∀ subs, (openThemeChannel true subs).2 = []) ∧
    (∀ subs, (loadUserData true subs).2 = []) ∧
    (∀ subs, (rootCleanup true subs).2 = []) := by
  refine ⟨?_, fun pid st db => rfl, ?_, ?_, ?_, ?_, fun uid inv nowIso db => rfl, ?_, ?_,
    fun seg n db => rfl, fun s => rfl, fun uid st nowIso => rfl, ?_,
    fun uid f now => rfl, fun subs => rfl, fun subs => rfl, fun subs => rfl⟩
  · intro uid tbl db h
    have hb : (uid == "") = false := by simp [h]
    simp [updateTable, hb]
  · intro s be nowIso db h1 h2
    have hb : (s.email == "") = false := by simp [h1]
    have hs : (toUpperStr s.inviteCode == "ADMIN-SETUP") = false := by simp [h2]
    by_cases ho : be.otpOk = true <;>
      simp [handleEmailAuth, hb, validateCode, hs, ho]
  · intro s be nowIso db h1 h2 h3
    have hb : (s.email == "") = false := by simp [h1]
    have hp : (s.password == "") = false := by simp [h3]
    cases hbe : be.password <;>
      cases hsu : be.signup <;>
        simp [handleEmailAuth, hb, h2, validateCode, hp, hbe, hsu,
          createProfileAndEnter]
  · intro s be nowIso db h1
    have hb : (s.email == "") = true := by simp [h1]
    simp [handleEmailAuth, hb]
  · intro code db
    by_cases hs : (code == "ADMIN-SETUP") = true <;> simp [validateCode, hs]
  · intro code uid nowIso db
    by_cases hs : (code == "ADMIN-SETUP") = true <;>
      simp [redeem, validateCode, createProfileAndEnter, hs]
  · intro s db
    by_cases hb : (s.inviteCode == "") = true
    · simp [handleAuth, hb]
    · by_cases hs : (toUpperStr s.inviteCode == "ADMIN-SETUP") = true <;>
        simp [handleAuth, validateCode, hb, hs]
  · intro t
    by_cases hw : t.data.all Char.isWhitespace = true <;> simp [sendMessage, hw]

/-- Witness for C6's amended claim at concrete inputs. -/
theorem mock_mode_backend_calls_witness :
    (updateTable true "u9" "Mesa 2" ⟨[], [], []⟩).2 = [BCall.updateProfiles] ∧
    (handleEmailAuth true
        ⟨none, false, .AUTH, "G15-J03", "w@example.com", "", .EMAIL_REQUIRED, none,
          ⟨false, false⟩⟩
        ⟨.invalidLogin, .err, true⟩ "t0" ⟨[], [], []⟩).2.2 = [.signInWithOtp] ∧
    BCall.signInWithPassword ∈
      (handleEmailAuth true
        ⟨none, false, .AUTH, "ADMIN-SETUP", "w@example.com", "pw", .EMAIL_REQUIRED, none,
          ⟨false, false⟩⟩
        ⟨.invalidLogin, .noUser, true⟩ "t0" ⟨[], [], []⟩).2.2 ∧
    (validateCode true "ZZZ" ⟨[], [], []⟩).2 = [] :=
  ⟨mock_mode_backend_calls.1 "u9" "Mesa 2" ⟨[], [], []⟩ (by decide),
   mock_mode_backend_calls.2.2.1
     ⟨none, false, .AUTH, "G15-J03", "w@example.com", "", .EMAIL_REQUIRED, none,
       ⟨false, false⟩⟩
     ⟨.invalidLogin, .err, true⟩ "t0" ⟨[], [], []⟩ (by decide) (by decide),
   mock_mode_backend_calls.2.2.2.1
     ⟨none, false, .AUTH, "ADMIN-SETUP", "w@example.com", "pw", .EMAIL_REQUIRED, none,
       ⟨false, false⟩⟩
     ⟨.invalidLogin, .noUser, true⟩ "t0" ⟨[], [], []⟩ (by decide) (by decide) (by decide),
   mock_mode_backend_calls.2.2.2.2.2.1 "ZZZ" ⟨[], [], []⟩⟩

/-! ## Theorems: claim C7 (subscriptions at logout) -/

/-- C7 counterexample: with both realtime subscriptions open, logging out
leaves both open — handleLogout removes no channel. -/
theorem logout_leaves_subscriptions_cex :
    ((handleLogout false
        ⟨some ⟨"u1", "Ana", .YOUNG, false, none, "t"⟩, false, .HOME, "", "", "",
          .CODE, none, ⟨true, true⟩⟩).1.subs = ⟨true, true⟩) ∧
    BCall.removeChannel ∉
      (handleLogout false
        ⟨some ⟨"u1", "Ana", .YOUNG, false, none, "t"⟩, false, .HOME, "", "", "",
          .CODE, none, ⟨true, true⟩⟩).2 := by
  decide

/-- C7 amended: logout releases neither subscription: the channel state
is exactly preserved by handleLogout and no removeChannel call is
issued.  The theme channel is released only by the root effect's unmount
cleanup, which itself leaves the chat channel open; nothing in the
modelled session ever removes the chat channel. -/
theorem logout_releases_no_subscription (mock : Bool) (s : AppState) :
    (handleLogout mock s).1.subs = s.subs ∧
    BCall.removeChannel ∉ (handleLogout mock s).2 ∧
    (rootCleanup mock s.subs).1.chatOpen = s.subs.chatOpen := by
  refine ⟨rfl, ?_, ?_⟩
  · cases mock <;> simp [handleLogout]
  · cases mock <;> rfl

/-! ## Theorems: claim C8 (concrete generation sequences) -/

/-- Unfolding of online batchGenerate when the lexicographically last
matching code is known. -/
theorem batchGenerate_eq_of_last (seg : UserSegment) (amount : Nat) (db : DB)
    (c : String) (h : lastCodeWith db.invites (segmentCodeStart seg) = some c) :
    batchGenerate false seg amount db =
      ({ db with invites := db.invites ++ (List.range amount).map (fun i =>
          ({ code := segmentCodeStart seg ++
              genSuffix ((parseIntNat (stripCodeStart (segmentCodeStart seg) c)).map
                (fun n => n + 1)) i,
             segment := seg, is_used := false, used_by := none } : InviteCode)) },
        [.selectInvites, .insertInvites]) := by
  simp [batchGenerate, h]

/-- C8: generating 10 YOUNG codes from an empty backend inserts exactly
G15-J01 .. G15-J10, all unused; and generating 5 more when the
lexicographically highest existing code for the prefix is G15-J10
appends exactly G15-J11 .. G15-J15. -/
theorem generation_concrete_sequences :
    ((batchGenerate false .YOUNG 10 ⟨[], [], []⟩).1.invites =
      [⟨"G15-J01", .YOUNG, false, none⟩, ⟨"G15-J02", .YOUNG, false, none⟩,
       ⟨"G15-J03", .YOUNG, false, none⟩, ⟨"G15-J04", .YOUNG, false, none⟩,
       ⟨"G15-J05", .YOUNG, false, none⟩, ⟨"G15-J06", .YOUNG, false, none⟩,
       ⟨"G15-J07", .YOUNG, false, none⟩, ⟨"G15-J08", .YOUNG, false, none⟩,
       ⟨"G15-J09", .YOUNG, false, none⟩, ⟨"G15-J10", .YOUNG, false, none⟩]) ∧
    (∀ db : DB, lastCodeWith db.invites "G15-J" = some "G15-J10" →
      (batchGenerate false .YOUNG 5 db).1.invites = db.invites ++
        [⟨"G15-J11", .YOUNG, false, none⟩, ⟨"G15-J12", .YOUNG, false, none⟩,
         ⟨"G15-J13", .YOUNG, false, none⟩, ⟨"G15-J14", .YOUNG, false, none⟩,
         ⟨"G15-J15", .YOUNG, false, none⟩]) := by
  constructor
  · decide
  · intro db h
    rw [batchGenerate_eq_of_last .YOUNG 5 db "G15-J10" h]
    exact congrArg (fun l => db.invites ++ l) (by decide)

/-- Witness for C8's second scenario at the concrete ten-code backend. -/
theorem generation_concrete_sequences_witness :
    (batchGenerate false .YOUNG 5
        ⟨[⟨"G15-J01", .YOUNG, false, none⟩, ⟨"G15-J02", .YOUNG, false, none⟩,
          ⟨"G15-J03", .YOUNG, false, none⟩, ⟨"G15-J04", .YOUNG, false, none⟩,
          ⟨"G15-J05", .YOUNG, false, none⟩, ⟨"G15-J06", .YOUNG, false, none⟩,
          ⟨"G15-J07", .YOUNG, false, none⟩, ⟨"G15-J08", .YOUNG, false, none⟩,
          ⟨"G15-J09", .YOUNG, false, none⟩, ⟨"G15-J10", .YOUNG, false, none⟩], [], []⟩).1.invites =
      [⟨"G15-J01", .YOUNG, false, none⟩, ⟨"G15-J02", .YOUNG, false, none⟩,
       ⟨"G15-J03", .YOUNG, false, none⟩, ⟨"G15-J04", .YOUNG, false, none⟩,
       ⟨"G15-J05", .YOUNG, false, none⟩, ⟨"G15-J06", .YOUNG, false, none⟩,
       ⟨"G15-J07", .YOUNG, false, none⟩, ⟨"G15-J08", .YOUNG, false, none⟩,
       ⟨"G15-J09", .YOUNG, false, none⟩, ⟨"G15-J10", .YOUNG, false, none⟩] ++
      [⟨"G15-J11", .YOUNG, false, none⟩, ⟨"G15-J12", .YOUNG, false, none⟩,
       ⟨"G15-J13", .YOUNG, false, none⟩, ⟨"G15-J14", .YOUNG, false, none⟩,
       ⟨"G15-J15", .YOUNG, false, none⟩] :=
  generation_concrete_sequences.2
    ⟨[⟨"G15-J01", .YOUNG, false, none⟩, ⟨"G15-J02", .YOUNG, false, none⟩,
      ⟨"G15-J03", .YOUNG, false, none⟩, ⟨"G15-J04", .YOUNG, false, none⟩,
      ⟨"G15-J05", .YOUNG, false, none⟩, ⟨"G15-J06", .YOUNG, false, none⟩,
      ⟨"G15-J07", .YOUNG, false, none⟩, ⟨"G15-J08", .YOUNG, false, none⟩,
      ⟨"G15-J09", .YOUNG, false, none⟩, ⟨"G15-J10", .YOUNG, false, none⟩], [], []⟩
    (by decide)

/-! ## Theorems: claim C3 counterexample (digit-width reuse) -/

/-- C3 counterexample: with existing suffixes 99 and 100 for the prefix
(highest number 100), the lexicographic maximum is G15-J99, so the next
generation starts at 100 — not 101 — and re-produces G15-J100, a number
that is NOT strictly greater than every existing code's number. -/
theorem generator_digit_width_cex :
    (batchGenerate false .YOUNG 1
        ⟨[⟨"G15-J99", .YOUNG, false, none⟩, ⟨"G15-J100", .YOUNG, false, none⟩],
          [], []⟩).1.invites =
      [⟨"G15-J99", .YOUNG, false, none⟩, ⟨"G15-J100", .YOUNG, false, none⟩,
       ⟨"G15-J100", .YOUNG, false, none⟩] ∧
    parseIntNat "100" = some 100 := by
  decide

/-! ## Theorems: claim C9 counterexample (sanitization replaces, not strips) -/

/-- C9 counterexample: the stored name keeps a character for every
non-alphanumeric character of the original (as '_') instead of stripping
them: the sanitized part of the stored path itself contains the
non-alphanumeric character '_'. -/
theorem upload_sanitize_strips_cex :
    storagePath "u1" "a b.png" 7 = "u1/7_a_b_png.png" ∧
    cleanName "a b.png" ≠ stripNonAlnum "a b.png" ∧
    '_' ∈ (cleanName "a b.png").data ∧ Char.isAlphanum '_' = false := by
  decide

/-! ## Auxiliary lemmas: decimal digit strings -/

theorem digitChar_digit {n : Nat} (h : n < 10) : (Nat.digitChar n).isDigit = true := by
  interval_cases n <;> decide

theorem digitChar_toNat {n : Nat} (h : n < 10) : (Nat.digitChar n).toNat - 48 = n := by
  interval_cases n <;> decide

theorem isDigit_bounds {c : Char} (h : c.isDigit = true) :
    48 ≤ c.toNat ∧ c.toNat ≤ 57 := by
  simp only [Char.isDigit, ge_iff_le, Bool.and_eq_true, decide_eq_true_eq] at h
  obtain ⟨h1, h2⟩ := h
  rw [UInt32.le_def, BitVec.le_def] at h1 h2
  exact ⟨h1, h2⟩

theorem natOfDigits_foldl (l : List Char) : ∀ a : Nat,
    l.foldl (fun x c => 10 * x + (c.toNat - 48)) a = a * 10 ^ l.length + natOfDigits l := by
  induction l with
  | nil => intro a; simp [natOfDigits]
  | cons c cs ih =>
    intro a
    simp only [natOfDigits, List.foldl_cons, List.length_cons] at *
    rw [ih (10 * a + (c.toNat - 48)), ih (10 * 0 + (c.toNat - 48))]
    ring

theorem natOfDigits_cons (c : Char) (l : List Char) :
    natOfDigits (c :: l) = (c.toNat - 48) * 10 ^ l.length + natOfDigits l := by
  simp only [natOfDigits, List.foldl_cons]
  rw [show (10 * 0 + (c.toNat - 48)) = c.toNat - 48 by ring]
  exact natOfDigits_foldl l (c.toNat - 48)

theorem natOfDigits_lt (l : List Char) (h : ∀ c ∈ l, c.isDigit = true) :
    natOfDigits l < 10 ^ l.length := by
  induction l with
  | nil => simp [natOfDigits]
  | cons c cs ih =>
    have hv := ih (fun x hx => h x (by simp [hx]))
    have hd := isDigit_bounds (h c (by simp))
    rw [natOfDigits_cons]
    have hstep : c.toNat - 48 + 1 ≤ 10 := by omega
    calc (c.toNat - 48) * 10 ^ cs.length + natOfDigits cs
        < (c.toNat - 48 + 1) * 10 ^ cs.length := by
          rw [add_mul, one_mul]; omega
      _ ≤ 10 * 10 ^ cs.length := Nat.mul_le_mul_right _ hstep
      _ = 10 ^ (c :: cs).length := by rw [List.length_cons]; ring

theorem toDigitsCore_spec : ∀ (f n : Nat) (acc : List Char), n < 10 ^ f →
    ∃ l, Nat.toDigitsCore 10 f n acc = l ++ acc ∧
      (∀ c ∈ l, c.isDigit = true) ∧ natOfDigits l = n ∧ (0 < f → l ≠ []) := by
  intro f
  induction f with
  | zero =>
    intro n acc h
    have hn : n = 0 := by simpa using h
    exact ⟨[], by simp [Nat.toDigitsCore], by simp, by simp [natOfDigits, hn], by simp⟩
  | succ f ih =>
    intro n acc h
    by_cases h0 : n / 10 = 0
    · have hn : n < 10 := by omega
      refine ⟨[Nat.digitChar (n % 10)], by simp [Nat.toDigitsCore, h0], ?_, ?_, by simp⟩
      · intro c hc
        rw [List.mem_singleton] at hc
        subst hc
        exact digitChar_digit (Nat.mod_lt _ (by norm_num))
      · have h1 : n % 10 = n := Nat.mod_eq_of_lt hn
        rw [natOfDigits_cons, digitChar_toNat (Nat.mod_lt _ (by norm_num))]
        simp [natOfDigits, h1]
    · have hdiv : n / 10 < 10 ^ f := by
        have h10 : (0:Nat) < 10 := by norm_num
        rw [Nat.div_lt_iff_lt_mul h10]
        calc n < 10 ^ (f + 1) := h
          _ = 10 ^ f * 10 := by ring
      obtain ⟨l, hl, hdig, hval, _⟩ := ih (n / 10) (Nat.digitChar (n % 10) :: acc) hdiv
      refine ⟨l ++ [Nat.digitChar (n % 10)], ?_, ?_, ?_, by simp⟩
      · rw [show Nat.toDigitsCore 10 (f + 1) n acc =
            Nat.toDigitsCore 10 f (n / 10) (Nat.digitChar (n % 10) :: acc) from
            by simp [Nat.toDigitsCore, h0]]
        rw [hl]
        simp
      · intro c hc
        rcases List.mem_append.mp hc with h' | h'
        · exact hdig c h'
        · rw [List.mem_singleton] at h'
          subst h'
          exact digitChar_digit (Nat.mod_lt _ (by norm_num))
      · have hsplit : natOfDigits (l ++ [Nat.digitChar (n % 10)]) =
            10 * natOfDigits l + ((Nat.digitChar (n % 10)).toNat - 48) := by
          simp only [natOfDigits, List.foldl_append, List.foldl_cons, List.foldl_nil]
        rw [hsplit, hval, digitChar_toNat (Nat.mod_lt _ (by norm_num))]
        omega

theorem repr_digits (n : Nat) :
    (∀ c ∈ (Nat.repr n).data, c.isDigit = true) ∧
    natOfDigits (Nat.repr n).data = n ∧ (Nat.repr n).data ≠ [] := by
  have hb : n < 10 ^ (n + 1) := by
    have h1 : n < 2 ^ n := Nat.lt_two_pow n
    have h2 : (2:Nat) ^ n ≤ 10 ^ n := Nat.pow_le_pow_left (by norm_num) n
    have h3 : (10:Nat) ^ n < 10 ^ (n + 1) := Nat.pow_lt_pow_succ (by norm_num)
    omega
  obtain ⟨l, hl, hdig, hval, hne⟩ := toDigitsCore_spec (n + 1) n [] hb
  have hdata : (Nat.repr n).data = l := by
    have hrepr : (Nat.repr n).data = Nat.toDigitsCore 10 (n + 1) n [] := rfl
    rw [hrepr, hl, List.append_nil]
  rw [hdata]
  exact ⟨hdig, hval, hne (by omega)⟩

theorem repr_injective {a b : Nat} (h : Nat.repr a = Nat.repr b) : a = b := by
  have ha := (repr_digits a).2.1
  have hb := (repr_digits b).2.1
  rw [h] at ha
  omega

theorem natOfDigits_replicate_zero (j : Nat) (l : List Char) :
    natOfDigits (List.replicate j '0' ++ l) = natOfDigits l := by
  induction j with
  | zero => simp
  | succ j ih =>
    have h0 : '0'.toNat - 48 = 0 := by decide
    rw [List.replicate_succ, List.cons_append, natOfDigits_cons, ih, h0]
    simp

theorem padStart2_digits (k : Nat) :
    (∀ c ∈ (padStart2 k).data, c.isDigit = true) ∧
    natOfDigits (padStart2 k).data = k := by
  unfold padStart2
  by_cases hl : (Nat.repr k).length < 2 <;> simp only [hl, if_true, if_false]
  · constructor
    · intro c hc
      rcases List.mem_append.mp hc with h' | h'
      · rw [List.eq_of_mem_replicate h']
        decide
      · exact (repr_digits k).1 c h'
    · rw [natOfDigits_replicate_zero]
      exact (repr_digits k).2.1
  · exact ⟨(repr_digits k).1, (repr_digits k).2.1⟩

/-! ## Auxiliary lemmas: takeWhile and lexicographic maximum -/

theorem takeWhile_append_stop {p : Char → Bool} (l1 : List Char) (x : Char)
    (l2 : List Char) (h1 : ∀ c ∈ l1, p c = true) (hx : p x = false) :
    (l1 ++ x :: l2).takeWhile p = l1 := by
  induction l1 with
  | nil => simp [List.takeWhile_cons, hx]
  | cons a as ih =>
    have ha := h1 a (by simp)
    simp [List.takeWhile_cons, ha, ih (fun c hc => h1 c (by simp [hc]))]

theorem codeLtb_irrefl (l : List Char) : codeLtb l l = false := by
  induction l with
  | nil => rfl
  | cons a as ih => simp [codeLtb, ih]

theorem codeLtb_asymm : ∀ l1 l2 : List Char,
    codeLtb l1 l2 = true → codeLtb l2 l1 = false := by
  intro l1
  induction l1 with
  | nil =>
    intro l2 h
    cases l2 with
    | nil => simp [codeLtb] at h
    | cons b bs => rfl
  | cons a as ih =>
    intro l2 h
    cases l2 with
    | nil => simp [codeLtb] at h
    | cons b bs =>
      simp only [codeLtb] at h ⊢
      by_cases hab : a.toNat < b.toNat
      · have hba : ¬ b.toNat < a.toNat := by omega
        simp [hab, hba]
      · by_cases hba : b.toNat < a.toNat
        · simp [hab, hba] at h
        · simp only [hab, hba, if_false] at h ⊢
          exact ih bs h

theorem codeLtb_false_trans : ∀ l1 l2 l3 : List Char,
    codeLtb l1 l2 = false → codeLtb l2 l3 = false → codeLtb l1 l3 = false := by
  intro l1
  induction l1 with
  | nil =>
    intro l2 l3 h12 h23
    cases l2 with
    | nil => exact h23
    | cons b bs => simp [codeLtb] at h12
  | cons a as ih =>
    intro l2 l3 h12 h23
    cases l3 with
    | nil => rfl
    | cons c cs =>
      cases l2 with
      | nil => simp [codeLtb] at h23
      | cons b bs =>
        simp only [codeLtb] at h12 h23 ⊢
        have hab : ¬ a.toNat < b.toNat := by
          intro hh
          simp [hh] at h12
        have hbc : ¬ b.toNat < c.toNat := by
          intro hh
          simp [hh] at h23
        have hac : ¬ a.toNat < c.toNat := by omega
        by_cases hca : c.toNat < a.toNat
        · simp [hac, hca]
        · have hba : ¬ b.toNat < a.toNat := by omega
          have hcb : ¬ c.toNat < b.toNat := by omega
          simp only [hab, hba, if_false] at h12
          simp only [hbc, hcb, if_false] at h23
          simp only [hac, hca, if_false]
          exact ih bs cs h12 h23

theorem codeLtb_of_val_lt : ∀ (l1 l2 : List Char), l1.length = l2.length →
    (∀ c ∈ l1, c.isDigit = true) → (∀ c ∈ l2, c.isDigit = true) →
    natOfDigits l1 < natOfDigits l2 → codeLtb l1 l2 = true := by
  intro l1
  induction l1 with
  | nil =>
    intro l2 hlen _ _ hv
    cases l2 with
    | nil => simp [natOfDigits] at hv
    | cons b bs => simp at hlen
  | cons a as ih =>
    intro l2 hlen hd1 hd2 hv
    cases l2 with
    | nil => simp at hlen
    | cons b bs =>
      have hlen' : as.length = bs.length := by simpa using hlen
      have hda := isDigit_bounds (hd1 a (by simp))
      have hdb := isDigit_bounds (hd2 b (by simp))
      have hva : natOfDigits as < 10 ^ as.length :=
        natOfDigits_lt as (fun c hc => hd1 c (by simp [hc]))
      have hvb : natOfDigits bs < 10 ^ bs.length :=
        natOfDigits_lt bs (fun c hc => hd2 c (by simp [hc]))
      rw [natOfDigits_cons, natOfDigits_cons, hlen'] at hv
      simp only [codeLtb]
      by_cases hab : a.toNat < b.toNat
      · simp [hab]
      · by_cases hba : b.toNat < a.toNat
        · exfalso
          have h1 : b.toNat - 48 + 1 ≤ a.toNat - 48 := by omega
          have h2 : (b.toNat - 48) * 10 ^ bs.length + natOfDigits bs <
              (b.toNat - 48 + 1) * 10 ^ bs.length := by
            rw [add_mul, one_mul]
            omega
          have h3 : (b.toNat - 48 + 1) * 10 ^ bs.length ≤
              (a.toNat - 48) * 10 ^ bs.length := Nat.mul_le_mul_right _ h1
          rw [hlen'] at hva
          omega
        · have heq : a.toNat = b.toNat := by omega
          have hv' : natOfDigits as < natOfDigits bs := by
            rw [heq] at hv
            omega
          simp only [hab, hba, if_false]
          exact ih bs hlen' (fun c hc => hd1 c (by simp [hc]))
            (fun c hc => hd2 c (by simp [hc])) hv'

theorem foldl_lexMaxStep_isSome (L : List String) : ∀ m : String,
    ∃ r, L.foldl lexMaxStep (some m) = some r := by
  induction L with
  | nil => intro m; exact ⟨m, rfl⟩
  | cons c cs ih =>
    intro m
    simpa [lexMaxStep] using ih (if codeLtb m.data c.data then c else m)

theorem foldl_lexMaxStep_ne_none (L : List String) (hL : L ≠ []) :
    ∃ r, L.foldl lexMaxStep none = some r := by
  cases L with
  | nil => cases hL rfl
  | cons c cs => simpa [lexMaxStep] using foldl_lexMaxStep_isSome cs c

theorem foldl_lexMaxStep_spec (L : List String) :
    ∀ (acc : Option String) (r : String), L.foldl lexMaxStep acc = some r →
    (acc = some r ∨ r ∈ L) ∧
    (∀ m, acc = some m → codeLtb r.data m.data = false) ∧
    (∀ c ∈ L, codeLtb r.data c.data = false) := by
  induction L with
  | nil =>
    intro acc r h
    simp only [List.foldl_nil] at h
    subst h
    refine ⟨Or.inl rfl, fun m hm => ?_, fun c hc => absurd hc (List.not_mem_nil c)⟩
    cases hm
    exact codeLtb_irrefl r.data
  | cons c cs ih =>
    intro acc r h
    obtain ⟨hmem, hprev, hall⟩ := ih (lexMaxStep acc c) r h
    cases acc with
    | none =>
      have hc : codeLtb r.data c.data = false := hprev c rfl
      refine ⟨?_, fun m hm => Option.noConfusion hm, fun x hx => ?_⟩
      · rcases hmem with h' | h'
        · have hcr : c = r := by simpa [lexMaxStep] using h'
          exact Or.inr (by simp [hcr])
        · exact Or.inr (by simp [h'])
      · rcases List.mem_cons.mp hx with rfl | hx'
        · exact hc
        · exact hall x hx'
    | some m =>
      by_cases hmc : codeLtb m.data c.data = true
      · have hstep : lexMaxStep (some m) c = some c := by simp [lexMaxStep, hmc]
        have hc : codeLtb r.data c.data = false := hprev c hstep
        have hcm : codeLtb c.data m.data = false := codeLtb_asymm _ _ hmc
        have hm : codeLtb r.data m.data = false := codeLtb_false_trans _ _ _ hc hcm
        refine ⟨?_, fun m' hm' => ?_, fun x hx => ?_⟩
        · rcases hmem with h' | h'
          · rw [hstep] at h'
            have hcr : c = r := Option.some.inj h'
            exact Or.inr (by simp [hcr])
          · exact Or.inr (by simp [h'])
        · cases hm'
          exact hm
        · rcases List.mem_cons.mp hx with rfl | hx'
          · exact hc
          · exact hall x hx'
      · have hmc' : codeLtb m.data c.data = false := by
          simp only [Bool.not_eq_true] at hmc
          exact hmc
        have hstep : lexMaxStep (some m) c = some m := by simp [lexMaxStep, hmc']
        have hm : codeLtb r.data m.data = false := hprev m hstep
        have hc : codeLtb r.data c.data = false := codeLtb_false_trans _ _ _ hm hmc'
        refine ⟨?_, fun m' hm' => ?_, fun x hx => ?_⟩
        · rcases hmem with h' | h'
          · rw [hstep] at h'
            exact Or.inl h'
          · exact Or.inr (by simp [h'])
        · cases hm'
          exact hm
        · rcases List.mem_cons.mp hx with rfl | hx'
          · exact hc
          · exact hall x hx'

theorem isPrefixOf_append_self (l s : List Char) : l.isPrefixOf (l ++ s) = true := by
  rw [List.isPrefixOf_iff_prefix]
  exact List.prefix_append l s

theorem lastCodeWith_none_no_match (invites : List InviteCode) (pfx : String)
    (h : lastCodeWith invites pfx = none) :
    ∀ i ∈ invites, pfx.data.isPrefixOf i.code.data = false := by
  intro i hi
  by_contra hp
  have hp' : pfx.data.isPrefixOf i.code.data = true := by
    simp only [Bool.not_eq_false] at hp
    exact hp
  have hmem : i.code ∈ (invites.map (fun j => j.code)).filter
      (fun c => pfx.data.isPrefixOf c.data) :=
    List.mem_filter.mpr ⟨List.mem_map.mpr ⟨i, hi, rfl⟩, hp'⟩
  obtain ⟨r, hr⟩ := foldl_lexMaxStep_ne_none _ (List.ne_nil_of_mem hmem)
  unfold lastCodeWith at h
  rw [h] at hr
  exact Option.noConfusion hr

theorem lastCodeWith_spec (invites : List InviteCode) (pfx : String) (r : String)
    (h : lastCodeWith invites pfx = some r) :
    (∃ i ∈ invites, i.code = r) ∧ pfx.data.isPrefixOf r.data = true ∧
    ∀ i ∈ invites, pfx.data.isPrefixOf i.code.data = true →
      codeLtb r.data i.code.data = false := by
  unfold lastCodeWith at h
  obtain ⟨hmem, _, hall⟩ := foldl_lexMaxStep_spec _ none r h
  have hrL : r ∈ (invites.map (fun j => j.code)).filter
      (fun c => pfx.data.isPrefixOf c.data) := by
    rcases hmem with h' | h'
    · exact Option.noConfusion h'
    · exact h'
  have hfl := List.mem_filter.mp hrL
  obtain ⟨i, hi, hic⟩ := List.mem_map.mp hfl.1
  refine ⟨⟨i, hi, hic⟩, hfl.2, fun j hj hpj => ?_⟩
  exact hall j.code (List.mem_filter.mpr ⟨List.mem_map.mpr ⟨j, hj, rfl⟩, hpj⟩)

theorem codeLtb_append_left (p x y : List Char) :
    codeLtb (p ++ x) (p ++ y) = codeLtb x y := by
  induction p with
  | nil => rfl
  | cons a ps ih => simp [codeLtb, ih]

/-! ## Theorems: claim C3 amended (fresh numbers per prefix) -/

/-- C3 amended: when every existing code sharing the segment's prefix has
a purely numeric suffix and all those suffixes share one digit width (as
the zero-padded allocation scheme produces), online generation starts at
the greatest allocated number plus one (1 when the prefix is fresh) and
every produced code carries a number strictly greater than every
existing code's number.  (The counterexample shows the claim fails, as
stated, as soon as existing suffixes span different digit widths.) -/
theorem generator_fresh_numbers (seg : UserSegment) (amount : Nat) (db : DB) (w : Nat)
    (hw : ∀ inv ∈ db.invites,
      (segmentCodeStart seg).data.isPrefixOf inv.code.data = true →
      ∃ s : List Char, inv.code.data = (segmentCodeStart seg).data ++ s ∧
        (∀ c ∈ s, c.isDigit = true) ∧ s.length = w ∧ s ≠ []) :
    ∃ startNum : Nat,
      (batchGenerate false seg amount db).1.invites =
        db.invites ++ (List.range amount).map (fun i =>
          ({ code := segmentCodeStart seg ++ padStart2 (startNum + i), segment := seg,
             is_used := false, used_by := none } : InviteCode)) ∧
      (∀ i, i < amount → natOfDigits (padStart2 (startNum + i)).data = startNum + i) ∧
      (∀ inv ∈ db.invites, ∀ s : List Char,
        inv.code.data = (segmentCodeStart seg).data ++ s → natOfDigits s < startNum) ∧
      ((∀ inv ∈ db.invites,
        (segmentCodeStart seg).data.isPrefixOf inv.code.data = false) → startNum = 1) ∧
      ((∃ inv ∈ db.invites,
        (segmentCodeStart seg).data.isPrefixOf inv.code.data = true) →
        ∃ inv ∈ db.invites, ∃ s : List Char,
          inv.code.data = (segmentCodeStart seg).data ++ s ∧
          startNum = natOfDigits s + 1) := by
  cases hlast : lastCodeWith db.invites (segmentCodeStart seg) with
  | none =>
    refine ⟨1, ?_, ?_, ?_, fun _ => rfl, ?_⟩
    · simp [batchGenerate, hlast, genSuffix]
    · intro i _
      exact (padStart2_digits (1 + i)).2
    · intro inv hinv s hs
      have hpi : (segmentCodeStart seg).data.isPrefixOf inv.code.data = true := by
        rw [hs]
        exact isPrefixOf_append_self _ _
      have hno := lastCodeWith_none_no_match db.invites (segmentCodeStart seg) hlast inv hinv
      rw [hpi] at hno
      exact Bool.noConfusion hno
    · rintro ⟨inv, hinv, hp⟩
      have hno := lastCodeWith_none_no_match db.invites (segmentCodeStart seg) hlast inv hinv
      rw [hp] at hno
      exact Bool.noConfusion hno
  | some r =>
    obtain ⟨⟨i0, hi0, hi0c⟩, hpr, hmax⟩ :=
      lastCodeWith_spec db.invites (segmentCodeStart seg) r hlast
    obtain ⟨sr, hsr, hsrd, hsrw, hsrne⟩ := hw i0 hi0 (by rw [hi0c]; exact hpr)
    have hrdata : r.data = (segmentCodeStart seg).data ++ sr := by
      rw [← hi0c]
      exact hsr
    have hstrip : (stripCodeStart (segmentCodeStart seg) r).data = sr := by
      show r.data.drop (segmentCodeStart seg).data.length = sr
      rw [hrdata, List.drop_left]
    have htw : (stripCodeStart (segmentCodeStart seg) r).data.takeWhile Char.isDigit
        = sr := by
      rw [hstrip]
      exact List.takeWhile_eq_self_iff.mpr hsrd
    have hne : sr.isEmpty = false := by
      cases sr with
      | nil => exact absurd rfl hsrne
      | cons a l => rfl
    have hparse : parseIntNat (stripCodeStart (segmentCodeStart seg) r) =
        some (natOfDigits sr) := by
      simp only [parseIntNat, htw, hne, Bool.false_eq_true, if_false]
    refine ⟨natOfDigits sr + 1, ?_, ?_, ?_, ?_, ?_⟩
    · rw [batchGenerate_eq_of_last seg amount db r hlast, hparse]
      show db.invites ++ _ = db.invites ++ _
      simp [genSuffix]
    · intro i _
      exact (padStart2_digits (natOfDigits sr + 1 + i)).2
    · intro inv hinv s hs
      have hpi : (segmentCodeStart seg).data.isPrefixOf inv.code.data = true := by
        rw [hs]
        exact isPrefixOf_append_self _ _
      obtain ⟨s', hs', hsd', hsw', _⟩ := hw inv hinv hpi
      have happ : (segmentCodeStart seg).data ++ s = (segmentCodeStart seg).data ++ s' := by
        rw [← hs, ← hs']
      have hss : s = s' := List.append_cancel_left happ
      have hle : natOfDigits s ≤ natOfDigits sr := by
        by_contra hgt
        push_neg at hgt
        have hlen : sr.length = s.length := by
          rw [hsrw, hss, hsw']
        have hsd : ∀ c ∈ s, c.isDigit = true := by
          rw [hss]
          exact hsd'
        have hlt : codeLtb sr s = true := codeLtb_of_val_lt sr s hlen hsrd hsd hgt
        have hrc : codeLtb r.data inv.code.data = true := by
          rw [hrdata, hs, codeLtb_append_left]
          exact hlt
        have hm := hmax inv hinv hpi
        rw [hrc] at hm
        exact Bool.noConfusion hm
      omega
    · intro hnone
      have hno := hnone i0 hi0
      rw [hi0c, hpr] at hno
      exact Bool.noConfusion hno
    · intro _
      exact ⟨i0, hi0, sr, hsr, rfl⟩

/-- Witness for C3's amended claim: one existing uniform-width code
G15-J07, generating two more. -/
theorem generator_fresh_numbers_witness :
    ∃ startNum : Nat,
      (batchGenerate false .YOUNG 2
          ⟨[⟨"G15-J07", .YOUNG, false, none⟩], [], []⟩).1.invites =
        (⟨[⟨"G15-J07", .YOUNG, false, none⟩], [], []⟩ : DB).invites ++
          (List.range 2).map (fun i =>
            ({ code := segmentCodeStart .YOUNG ++ padStart2 (startNum + i),
               segment := .YOUNG, is_used := false, used_by := none } : InviteCode)) ∧
      (∀ i, i < 2 → natOfDigits (padStart2 (startNum + i)).data = startNum + i) ∧
      (∀ inv ∈ (⟨[⟨"G15-J07", .YOUNG, false, none⟩], [], []⟩ : DB).invites,
        ∀ s : List Char,
        inv.code.data = (segmentCodeStart .YOUNG).data ++ s →
          natOfDigits s < startNum) ∧
      ((∀ inv ∈ (⟨[⟨"G15-J07", .YOUNG, false, none⟩], [], []⟩ : DB).invites,
        (segmentCodeStart .YOUNG).data.isPrefixOf inv.code.data = false) →
        startNum = 1) ∧
      ((∃ inv ∈ (⟨[⟨"G15-J07", .YOUNG, false, none⟩], [], []⟩ : DB).invites,
        (segmentCodeStart .YOUNG).data.isPrefixOf inv.code.data = true) →
        ∃ inv ∈ (⟨[⟨"G15-J07", .YOUNG, false, none⟩], [], []⟩ : DB).invites,
          ∃ s : List Char,
          inv.code.data = (segmentCodeStart .YOUNG).data ++ s ∧
          startNum = natOfDigits s + 1) :=
  generator_fresh_numbers .YOUNG 2 ⟨[⟨"G15-J07", .YOUNG, false, none⟩], [], []⟩ 2
    (by
      intro inv hinv hp
      simp only [List.mem_singleton] at hinv
      subst hinv
      exact ⟨['0', '7'], by decide⟩)

/-! ## Theorems: claim C9 amended (upload path structure) -/

theorem storagePath_data (u f : String) (t : Nat) :
    (storagePath u f t).data =
      u.data ++ '/' :: ((Nat.repr t).data ++ '_' ::
        ((cleanName f).data ++ '.' :: (fileExt f).data)) := by
  simp [storagePath, String.data_append, List.append_assoc]

/-- C9 amended: the stored filename is the whole original name with
every non-alphanumeric character replaced by '_' (not stripped), with
the raw extension re-appended; the path is namespaced as
owner/timestamp_name.ext, and two uploads by different ('/'-free) owner
identities, or by the same owner at different timestamps, never produce
the same storage path. -/
theorem upload_paths_never_collide (u1 u2 f1 f2 : String) (t1 t2 : Nat)
    (h1 : '/' ∉ u1.data) (h2 : '/' ∉ u2.data)
    (hdiff : u1 ≠ u2 ∨ t1 ≠ t2) :
    storagePath u1 f1 t1 ≠ storagePath u2 f2 t2 ∧
    (handleUpload false u1 f1 t1).1 =
      some ⟨u1, storagePath u1 f1 t1, .PENDING, false⟩ ∧
    (∀ c ∈ (cleanName f1).data, c.isAlphanum = true ∨ c = '_') := by
  refine ⟨fun heq => ?_, rfl, fun c hc => ?_⟩
  · have hd := congrArg String.data heq
    rw [storagePath_data, storagePath_data] at hd
    have hall1 : ∀ c ∈ u1.data, (!(c == '/')) = true := by
      intro c hc
      simp only [Bool.not_eq_true', beq_eq_false_iff_ne]
      rintro rfl
      exact h1 hc
    have hall2 : ∀ c ∈ u2.data, (!(c == '/')) = true := by
      intro c hc
      simp only [Bool.not_eq_true', beq_eq_false_iff_ne]
      rintro rfl
      exact h2 hc
    have hsl : (!(('/' : Char) == '/')) = false := by decide
    have e1 := takeWhile_append_stop u1.data '/'
      ((Nat.repr t1).data ++ '_' :: ((cleanName f1).data ++ '.' :: (fileExt f1).data))
      hall1 hsl
    have e2 := takeWhile_append_stop u2.data '/'
      ((Nat.repr t2).data ++ '_' :: ((cleanName f2).data ++ '.' :: (fileExt f2).data))
      hall2 hsl
    have hu : u1.data = u2.data := by
      rw [← e1, ← e2, hd]
    have huS : u1 = u2 := String.ext hu
    rcases hdiff with hne | hne
    · exact hne huS
    · rw [hu] at hd
      have hA := List.append_cancel_left hd
      have hA' := List.cons.inj hA
      have d1 := takeWhile_append_stop (Nat.repr t1).data '_'
        ((cleanName f1).data ++ '.' :: (fileExt f1).data) (repr_digits t1).1 (by decide)
      have d2 := takeWhile_append_stop (Nat.repr t2).data '_'
        ((cleanName f2).data ++ '.' :: (fileExt f2).data) (repr_digits t2).1 (by decide)
      have hrepr : (Nat.repr t1).data = (Nat.repr t2).data := by
        rw [← d1, ← d2, hA'.2]
      exact hne (repr_injective (String.ext hrepr))
  · obtain ⟨x, _, hx⟩ := List.mem_map.mp hc
    by_cases ha : x.isAlphanum = true
    · rw [ha] at hx
      simp only [if_true] at hx
      exact Or.inl (hx ▸ ha)
    · simp only [Bool.not_eq_true] at ha
      rw [ha] at hx
      simp only [Bool.false_eq_true, if_false] at hx
      exact Or.inr hx.symm

/-- Witness for C9's amended claim: two concrete distinct owners, and the
same owner at two timestamps. -/
theorem upload_paths_never_collide_witness :
    (storagePath "ua" "x.png" 1 ≠ storagePath "ub" "x.png" 1) ∧
    (storagePath "ua" "x.png" 1 ≠ storagePath "ua" "y.png" 2) :=
  ⟨(upload_paths_never_collide "ua" "ub" "x.png" "x.png" 1 1
      (by decide) (by decide) (Or.inl (by decide))).1,
   (upload_paths_never_collide "ua" "ua" "x.png" "y.png" 1 2
      (by decide) (by decide) (Or.inr (by decide))).1⟩

end Gemma15
